import Mathlib

/-!
Shallow embedding of the MedicalDataProcessor / DataCleaner text pipeline.

Strings are modelled as `String` / `List Char` (ASCII fragment of Python's
semantics); `None`/NaN values as `Option`/a `Cell.null` constructor; the
pandas DataFrame as an association list from column name to list of cells.
Each definition mirrors one Python function or constant of the repository.
-/

namespace MedProc

/-- Python's `\s` character class (ASCII): the whitespace characters
recognised by `str.strip()` and the `\s*` in the label regex. -/
def isPySpace (c : Char) : Bool :=
  c == ' ' || c == '\t' || c == '\n' || c == '\r' || c == '\x0b' || c == '\x0c'

/-- Python's `\w` character class (ASCII fragment): letters, digits, underscore. -/
def isWordChar (c : Char) : Bool :=
  c.isAlphanum || c == '_'

/-- Python `str.strip()`: drop leading and trailing whitespace. -/
def pyStrip (s : List Char) : List Char :=
  ((s.dropWhile isPySpace).reverse.dropWhile isPySpace).reverse

/-- Python `str.split(' ')`: split on every single space; consecutive
separators produce empty tokens, and the result is never empty. -/
def pySplitSpace : List Char → List (List Char)
  | [] => [[]]
  | c :: cs =>
    match pySplitSpace cs with
    | [] => [[]]
    | t :: ts => if c == ' ' then [] :: t :: ts else (c :: t) :: ts

/-! ## Referral segmenter (`format_referral` in both classes) -/

/-- `self.keywords`: contrast keywords. -/
def keywords : List String := ["w", "wo", "with", "without", "wo/w"]

/-- `self.ct_types`: CT-type vocabulary marking the end of the exam name. -/
def ct_types : List String :=
  ["angiography", "arthrography", "enterography", "fistulogram",
   "urography", "venography", "quantitative", "scan"]

/-- Per-token cleaning in `format_referral`: `s.strip().replace(',', '')`. -/
def cleanToken (t : List Char) : List Char :=
  (pyStrip t).filter (fun c => !(c == ','))

/-- `row.split(' ')` followed by per-token cleaning. -/
def refTokens (s : String) : List (List Char) :=
  (pySplitSpace s.data).map cleanToken

/-- The body-part/contrast split performed on the tokens after the exam part:
scan for the first contrast keyword; split there, or take everything as the
body part when no keyword occurs. -/
def splitBodyContrast (others : List (List Char)) : Option String × Option String :=
  match others.findIdx? (fun t => keywords.contains (String.mk t)) with
  | some m =>
      (some (String.mk (List.intercalate [' '] (others.take m))),
       some (String.mk (List.intercalate [' '] (others.drop m))))
  | none => (some (String.mk (List.intercalate [' '] others)), none)

/-- `format_referral` on a string input: tokenize, find the first CT-type
token (taking tokens up to and including it as the exam, else the first token
alone), then split the remainder into body part and contrast. The empty token
list case corresponds to the caught `IndexError` (`except` branch). -/
def format_referral (s : String) : Option String × Option String × Option String :=
  match refTokens s with
  | [] => (none, none, none)
  | e0 :: rest =>
    match (e0 :: rest).findIdx? (fun t => ct_types.contains (String.mk t)) with
    | some k =>
      let bc := splitBodyContrast ((e0 :: rest).drop (k + 1))
      (some (String.mk (List.intercalate [' '] ((e0 :: rest).take (k + 1)))), bc.1, bc.2)
    | none =>
      let bc := splitBodyContrast rest
      (some (String.mk e0), bc.1, bc.2)

/-- Python inputs to `format_referral`: a string, or any non-string value
(the `isinstance` check sends the latter straight to the all-null result). -/
inductive PyInput where
  | str (s : String)
  | nonstr
deriving DecidableEq

/-- `format_referral` including the `isinstance(row, str)` guard. -/
def format_referral_input : PyInput → Option String × Option String × Option String
  | .nonstr => (none, none, none)
  | .str s => format_referral s

/-! ## Recommendation extractor (`clean_recommendation`)

Embeds `re.search(r"(Recommendation|Exam):\s*([^.\n]+)", text, re.IGNORECASE)`
for this specific pattern: leftmost position wins; at a position the two
alternatives are tried; after the colon, `\s*` backtracks as far as needed for
`([^.\n]+)` to capture at least one character greedily. -/

/-- Case-insensitive literal prefix test (the pattern is given lower-case). -/
def ciPrefixOf (pat s : List Char) : Bool :=
  decide ((s.take pat.length).map Char.toLower = pat)

/-- Can `[^.\n]+` start at offset `k` of `t`? (there is a character there
that is neither a period nor a newline). -/
def okStart (t : List Char) (k : Nat) : Bool :=
  match (t.drop k).head? with
  | some c => !(c == '.' || c == '\n')
  | none => false

/-- Backtracking of `\s*`: the largest `k` not exceeding the whitespace run
length at which `[^.\n]+` can start. -/
def findStart (t : List Char) : Nat → Option Nat
  | 0 => if okStart t 0 then some 0 else none
  | k + 1 => if okStart t (k + 1) then some (k + 1) else findStart t k

/-- Match `\s*([^.\n]+)` against `t` (the text after the colon), returning
the capture of group 2. -/
def labelTail (t : List Char) : Option (List Char) :=
  match findStart t (t.takeWhile isPySpace).length with
  | some k => some ((t.drop k).takeWhile (fun c => !(c == '.' || c == '\n')))
  | none => none

/-- Try the full pattern anchored at the head of `s`: `Recommendation:` or
`Exam:` (case-insensitive, mutually exclusive at one position), then the tail. -/
def tryLabelAt (s : List Char) : Option (List Char) :=
  if ciPrefixOf "recommendation:".data s then labelTail (s.drop 15)
  else if ciPrefixOf "exam:".data s then labelTail (s.drop 5)
  else none

/-- `re.search`: scan start positions left to right, first success wins. -/
def scanLabel : List Char → Option (List Char)
  | [] => none
  | c :: cs =>
    match tryLabelAt (c :: cs) with
    | some g => some g
    | none => scanLabel cs

/-- Python `str.rstrip('.')`: drop every trailing period. -/
def stripTrailingDots (l : List Char) : List Char :=
  (l.reverse.dropWhile (fun c => c == '.')).reverse

/-- `clean_recommendation`: return the stripped capture of the first label
match; otherwise newlines become spaces, the text is stripped, and all
trailing periods are removed. -/
def clean_recommendation (text : String) : String :=
  match scanLabel text.data with
  | some g => String.mk (pyStrip g)
  | none =>
      String.mk (stripTrailingDots
        (pyStrip (text.data.map (fun c => if c == '\n' then ' ' else c))))

/-! ## Taxonomy encoder (`tokenize_and_flag_organs`, `map_exam_to_binary_flag`) -/

/-- Literal prefix test on characters (the compiled form of an
`re.escape`d pattern fragment). -/
def litPrefix : List Char → List Char → Bool
  | [], _ => true
  | _ :: _, [] => false
  | c :: t, d :: s => c == d && litPrefix t s

/-- Is the character at position `i` of `s` a word character?
(out of range counts as non-word, as at the ends of a regex subject). -/
def headIsWord (l : List Char) : Bool :=
  match l with
  | [] => false
  | c :: _ => isWordChar c

/-- The word-character status of the position just before `i` (`false` at the
start of the subject). -/
def prevWordAt (s : List Char) : Nat → Bool
  | 0 => false
  | j + 1 => headIsWord (s.drop j)

/-- The `\b` assertion of `re` at position `i`: the word-character status
changes between the previous and the current position. -/
def boundaryAt (s : List Char) (i : Nat) : Bool :=
  prevWordAt s i != headIsWord (s.drop i)

/-- `re.search(r"\b" + re.escape(term) + r"\b", s)` as a Boolean: some start
position carries a word boundary, the literal term, and a closing boundary. -/
def reSearchWholeWord (term s : List Char) : Bool :=
  (List.range (s.length + 1)).any fun i =>
    boundaryAt s i && litPrefix term (s.drop i) && boundaryAt s (i + term.length)

/-- The cleaning applied by both encoders: hyphens to spaces, lower-case,
then drop every character that is neither `\w` nor `\s`. -/
def cleanPhrase (s : List Char) : List Char :=
  ((s.map fun c => if c == '-' then ' ' else c).map Char.toLower).filter
    fun c => isWordChar c || isPySpace c

/-- One category scan followed by the bit-OR accumulation of the encoders. -/
def encodeFlags (table : List (Nat × List String)) (cleaned : List Char) : Nat :=
  table.foldl
    (fun acc e =>
      if e.2.any (fun term => reSearchWholeWord term.data cleaned) then
        acc ||| (1 <<< e.1)
      else acc)
    0

/-- `self.exam_categories` paired with the bit of `categories_to_flags`,
in the dictionary's insertion order. -/
def exam_categories : List (Nat × List String) :=
  [(0, ["ct", "ct angiography", "ct enterography", "ct high resolution", "ct colonography",
        "ct venography", "ct maxillofacial", "ct pancreatitis protocol", "ct retroperitoneal",
        "ct angiography retroperitoneum", "ct retroperitoneal space", "ct retroperitineal space",
        "ct pancreas protoco", "ct enteroclysis", "ct angiography perfusion",
        "ct angiography aortography", "ct arteriography", "ct artrography",
        "computed tomography ct scan", "high resolution ct scan", "ct, x-ray",
        "ct, ct urography", "ct, xray"]),
   (1, ["mri", "mri enterography", "mri angiography", "mri brain and mr angiography",
        "cardiac mri", "pelvic mri", "mrcp", "mrv"]),
   (2, ["ultrasound", "doppler ultrasound", "carotid duplex ultrasound", "pelvic ultrasound",
        "arterial/venous duplex ultrasound", "duplex ultrasound"]),
   (3, ["xray", "mammogram", "mammography", "radiography", "dental ct scan",
        "barium swallow study", "x-ray"]),
   (4, ["petct", "nuclear bone scan", "bone scan", "whole body bone scan", "pet scan",
        "dexa scan"]),
   (5, ["cervical nerve root block", "lumbar nerve root block", "pudendal nerve root block",
        "catheter", "biopsy", "colonoscopy", "retrograde pyelogram", "esophagography",
        "cystoscopy", "cystography", "esophagogastroduodenoscopy", "epidural steroid injection"]),
   (6, ["echocardiogram", "stress test", "coronary angiography", "stress echocardiogram"]),
   (7, ["general health check-up", "general physical exam", "complete blood count",
        "general check-up", "physical examination", "comprehensive metabolic panel",
        "complete body scan", "check-up", "general check up"])]

/-- `self.organ_clusters` paired with the bit of `cluster_tokens`,
in the dictionary's insertion order. -/
def organ_clusters : List (Nat × List String) :=
  [(0, ["head", "cranial", "skull", "brain", "cerebral", "facial", "sinus", "paranasal sinuses",
        "temporal bone", "face", "orbit", "temporomandibular joints", "maxilla", "sinuses",
        "mandible", "pituitary gland", "maxillofacial area", "maxillofacial", "nasopharynx",
        "salivary glands", "maxillofacial region", "mouth area", "tongue", "scalp", "pituitary",
        "eye", "intracranial", "ear", "temporomandibular joint"]),
   (1, ["neck", "cervical", "throat", "nuchal", "larynx", "esophagus", "carotid arteries",
        "carotid", "parotid gland", "thyroid"]),
   (2, ["thorax", "chest", "thoracic", "pulmonary", "heart", "cardiac", "breast", "mediastinum",
        "aorta", "aortic", "coronary", "coronaries", "aorta branches", "sternoclavicular joint",
        "breasts", "trachea", "lung", "lungs", "clavicula", "scapula bone",
        "joint sternoclavicular", "subclavian artery", "coronary arteries"]),
   (3, ["abdomen", "abdominal", "stomach", "intestinal", "gastrointestinal", "liver", "pancreas",
        "spleen", "small bowel", "colon", "colonography colon", "gallbladder", "kidney",
        "kidneys", "urinary organs", "biliary tract", "biliary system", "renal", "adrenal",
        "adrenal gland", "adrenal glands", "pelvis", "pelvic", "hip", "inguinal", "pubic",
        "iliac vein", "urinary bladder", "urinary tract", "prostate", "uterus",
        "uterus and ovaries"]),
   (4, ["upper", "arm", "shoulder", "elbow", "wrist", "hand", "scapula", "clavicle", "humerus",
        "right humerus", "ulna left", "forearm", "left forearm", "finger", "brachial plexus",
        "right thumb"]),
   (5, ["lower", "leg", "knee", "knees", "foot", "thigh", "tibia", "femur", "calcaneus",
        "popliteal artery", "knees bilateral", "right malleolus", "femoral nerve left",
        "lower extremities", "iliofemoral arteries", "ankle"]),
   (6, ["spine", "vertebral", "lumbar", "sacral", "spinal canal", "spinal cord", "spinal",
        "thoracic spine"]),
   (7, ["joint", "bone", "bones", "skeletal", "skeleton", "extremities", "musculoskeletal",
        "musculoskeletal system"]),
   (8, ["lymph nodes", "lymphatic system"]),
   (9, ["whole body", "body", "full body", "various organs", "multiple organs", "extremities",
        "multiple organ systems", "muscular system", "skin", "limbs", "blood", "peripheral",
        "endocrine system", "muscles", "vascular region", "vascular system", "arterial system"])]

/-- `map_exam_to_binary_flag`: `None` propagates, otherwise clean and encode
against the exam categories (8 bits). -/
def map_exam_to_binary_flag (exam_name : Option String) : Option Nat :=
  exam_name.map fun s => encodeFlags exam_categories (cleanPhrase s.data)

/-- `tokenize_and_flag_organs`: `None` propagates, otherwise clean and encode
against the organ clusters (10 bits). -/
def tokenize_and_flag_organs (phrase : Option String) : Option Nat :=
  phrase.map fun s => encodeFlags organ_clusters (cleanPhrase s.data)

/-! ## Contrast standardisation and coding -/

/-- `self.contrast_standardization_map` as a lookup. -/
def standardize_lookup (s : String) : Option String :=
  if s = "with iv contrast " then some "with iv contrast"
  else if s = "without iv contrast " then some "without iv contrast"
  else if s = " with iv contrast" then some "with iv contrast"
  else if s = " with or without iv contrast" then some "with or without iv contrast"
  else if s = " without iv contrast" then some "without iv contrast"
  else if s = "with or without iv contrast " then some "with or without iv contrast"
  else none

/-- The dictionary of `encode_binary_flags_contrast`: the three canonical
phrases map to their integer codes; every other value maps to null. -/
def contrast_code (s : String) : Option Nat :=
  if s = "with iv contrast" then some 1
  else if s = "without iv contrast" then some 0
  else if s = "with or without iv contrast" then some 2
  else none

/-- `encode_binary_flags_contrast` applied to a single value:
`.map(dict)` sends null to null and unknown strings to null. -/
def encode_contrast (v : Option String) : Option Nat :=
  v.bind contrast_code

/-- `standardize_contrast` applied to a single value:
`.map(dict).fillna(column)` leaves null and unknown values unchanged. -/
def standardize_contrast (v : Option String) : Option String :=
  match v with
  | none => none
  | some s =>
    match standardize_lookup s with
    | some t => some t
    | none => some s

/-! ## DataFrame model and the orchestrator (`process_data`) -/

/-- A cell of the record store: a string, an integer (a written flag), or a
null/NaN. -/
inductive Cell where
  | str (s : String)
  | int (n : Nat)
  | null
deriving DecidableEq

/-- `str(x)` as applied by the encoders after the NaN check. -/
def cellText : Cell → Option String
  | .null => none
  | .str s => some s
  | .int n => some (toString n)

/-- `map_exam_to_binary_flag` lifted to a cell. -/
def examFlagCell (c : Cell) : Cell :=
  match map_exam_to_binary_flag (cellText c) with
  | some n => .int n
  | none => .null

/-- `tokenize_and_flag_organs` lifted to a cell. -/
def organFlagCell (c : Cell) : Cell :=
  match tokenize_and_flag_organs (cellText c) with
  | some n => .int n
  | none => .null

/-- `standardize_contrast` on one cell: only a string that hits the
standardisation table changes. -/
def standardizeCell (c : Cell) : Cell :=
  match c with
  | .str s =>
    match standardize_lookup s with
    | some t => .str t
    | none => .str s
  | x => x

/-- The contrast-code dictionary on one cell: non-matching values
(including integers and nulls) become null. -/
def contrastFlagCell (c : Cell) : Cell :=
  match c with
  | .str s =>
    match contrast_code s with
    | some n => .int n
    | none => .null
  | _ => .null

/-- The record store: an ordered association list from column name to the
column's cells. -/
def DataFrame : Type := List (String × List Cell)

instance : DecidableEq DataFrame := by
  unfold DataFrame
  infer_instance

/-- Column read (`df[name]`): the first binding wins. -/
def getCol : DataFrame → String → Option (List Cell)
  | [], _ => none
  | e :: t, name => if e.1 = name then some e.2 else getCol t name

/-- Column write (`df[name] = col`): replace the first binding or append. -/
def setCol : DataFrame → String → List Cell → DataFrame
  | [], name, col => [(name, col)]
  | e :: t, name, col =>
    if e.1 = name then (name, col) :: t else e :: setCol t name col

/-- `process_data`, with the in-place mutation made explicit: the first
component is the DataFrame state reached, the second the raised `KeyError`
(if any). Each column access fails when the column is absent, leaving the
mutations already performed in place. -/
def process_data (df : DataFrame) (exam_column organ_column contrast_column : String) :
    DataFrame × Option String :=
  match getCol df exam_column with
  | none => (df, some ("KeyError: " ++ exam_column))
  | some ecol =>
    let df1 := setCol df (exam_column ++ "_flags") (ecol.map examFlagCell)
    match getCol df1 organ_column with
    | none => (df1, some ("KeyError: " ++ organ_column))
    | some ocol =>
      let df2 := setCol df1 (organ_column ++ "_flags") (ocol.map organFlagCell)
      match getCol df2 contrast_column with
      | none => (df2, some ("KeyError: " ++ contrast_column))
      | some ccol =>
        let scol := ccol.map standardizeCell
        let df3 := setCol df2 contrast_column scol
        let df4 := setCol df3 (contrast_column ++ "_flags") (scol.map contrastFlagCell)
        (df4, none)

/-! ## Specification-side definitions

These follow the wording of the specification, to be compared with the
definitions translated from the code. -/

/-- Spec wording of the taxonomy-matching invariant: the term occurs in the
cleaned text with no word character immediately before or after the
occurrence (a word-boundary-delimited occurrence, not a mere substring). -/
def WholeWordOccurs (term s : List Char) : Prop :=
  ∃ pre post, s = pre ++ term ++ post ∧
    (∀ pre' c, pre = pre' ++ [c] → isWordChar c = false) ∧
    (∀ c post', post = c :: post' → isWordChar c = false)

/-- Does the last character of the list exist and count as a word character? -/
def goodEnds : List Char → Bool
  | [] => false
  | [c] => isWordChar c
  | _ :: c :: t => goodEnds (c :: t)

/-- A term that begins and ends with a word character (true of every term of
the organ and exam vocabularies that contains no punctuation). -/
def goodTerm (t : List Char) : Bool :=
  (match t with
   | [] => false
   | c :: _ => isWordChar c) && goodEnds t

/-- Substring containment (used to state "text containing ..."). -/
def containsSeg (pat s : List Char) : Bool :=
  (List.range (s.length + 1)).any fun i => litPrefix pat (s.drop i)

/-- The transformation claimed by the spec for label-free text: newlines to
spaces, strip, and remove a SINGLE trailing period (the code removes all of
them). Modelled from the spec's words for comparison. -/
def claimedNoLabelClean (text : String) : String :=
  let u := pyStrip (text.data.map fun c => if c == '\n' then ' ' else c)
  if u.getLast? = some '.' then String.mk u.dropLast else String.mk u

/-! ## Supporting lemmas -/

theorem pySplitSpace_ne_nil (l : List Char) : pySplitSpace l ≠ [] := by
  cases l with
  | nil => simp [pySplitSpace]
  | cons c cs =>
    simp only [pySplitSpace]
    cases pySplitSpace cs with
    | nil => simp
    | cons t ts => by_cases h : c == ' ' <;> simp [h]

theorem litPrefix_iff (t : List Char) : ∀ s, litPrefix t s = true ↔ ∃ r, s = t ++ r := by
  induction t with
  | nil => intro s; simp [litPrefix]
  | cons c t ih =>
    intro s
    cases s with
    | nil => simp [litPrefix]
    | cons d s' =>
      simp only [litPrefix, Bool.and_eq_true, beq_iff_eq, ih, List.cons_append,
        List.cons.injEq]
      constructor
      · rintro ⟨rfl, r, rfl⟩; exact ⟨r, rfl, rfl⟩
      · rintro ⟨r, rfl, rfl⟩; exact ⟨rfl, r, rfl⟩

theorem findIdx?_none_of_all {α : Type} (p : α → Bool) (l : List α)
    (h : ∀ x ∈ l, p x = false) : l.findIdx? p = none :=
  List.findIdx?_eq_none_iff.mpr h

theorem goodEnds_concat (l : List Char) (c : Char) : goodEnds (l ++ [c]) = isWordChar c := by
  induction l with
  | nil => rfl
  | cons a l ih =>
    cases hl : l ++ [c] with
    | nil => simp at hl
    | cons b t =>
      have h2 : goodEnds ((a :: l) ++ [c]) = goodEnds (b :: t) := by
        simp only [List.cons_append, hl]
        cases t <;> rfl
      rw [h2, ← hl, ih]

theorem goodTerm_head (t : List Char) (h : goodTerm t = true) :
    ∃ a t', t = a :: t' ∧ isWordChar a = true := by
  cases t with
  | nil => simp [goodTerm] at h
  | cons a t' =>
    refine ⟨a, t', rfl, ?_⟩
    have := (Bool.and_eq_true _ _).mp h
    exact this.1

theorem goodTerm_last (t : List Char) (h : goodTerm t = true) :
    ∃ t'' b, t = t'' ++ [b] ∧ isWordChar b = true := by
  rcases List.eq_nil_or_concat t with rfl | ⟨t'', b, rfl⟩
  · simp [goodTerm] at h
  · rw [List.concat_eq_append] at h ⊢
    refine ⟨t'', b, rfl, ?_⟩
    have h2 := ((Bool.and_eq_true _ _).mp h).2
    rwa [goodEnds_concat] at h2

theorem reSearch_iff (term s : List Char) (h : goodTerm term = true) :
    reSearchWholeWord term s = true ↔ WholeWordOccurs term s := by
  obtain ⟨a, ta, hta, hwa⟩ := goodTerm_head term h
  obtain ⟨tb, b, htb, hwb⟩ := goodTerm_last term h
  constructor
  · intro hs
    rw [reSearchWholeWord, List.any_eq_true] at hs
    obtain ⟨i, hi, hcond⟩ := hs
    rw [List.mem_range] at hi
    obtain ⟨h12, h3⟩ := (Bool.and_eq_true _ _).mp hcond
    obtain ⟨h1, h2⟩ := (Bool.and_eq_true _ _).mp h12
    obtain ⟨post, hpost⟩ := (litPrefix_iff term _).mp h2
    have hs_split : s = s.take i ++ (term ++ post) := by
      conv_lhs => rw [← List.take_append_drop i s]
      rw [hpost]
    refine ⟨s.take i, post, hs_split.trans (List.append_assoc _ _ _).symm, ?_, ?_⟩
    · intro pre' c hpre
      have hw : headIsWord (s.drop i) = true := by
        rw [hpost, hta]; simp [headIsWord, hwa]
      have hprev : prevWordAt s i = false := by
        rw [boundaryAt, hw] at h1
        cases hpv : prevWordAt s i with
        | false => rfl
        | true => rw [hpv] at h1; simp at h1
      have hilen : i = pre'.length + 1 := by
        have hle : i ≤ s.length := Nat.lt_succ_iff.mp hi
        have hlt : (s.take i).length = i := by
          rw [List.length_take]; omega
        rw [hpre] at hlt; simp at hlt; omega
      rw [hilen] at hprev
      have hdrop : s.drop pre'.length = c :: (term ++ post) := by
        conv_lhs => rw [hs_split, hpre]
        rw [List.append_assoc, List.singleton_append, List.drop_left]
      simp only [prevWordAt, hdrop, headIsWord] at hprev
      exact hprev
    · intro c post' hpc
      have hlen : term.length = tb.length + 1 := by rw [htb]; simp
      have hdropb : s.drop (i + tb.length) = b :: post := by
        rw [← List.drop_drop, hpost, htb, List.append_assoc, List.singleton_append,
          List.drop_left]
      have hpw : prevWordAt s (i + term.length) = true := by
        have : i + term.length = (i + tb.length) + 1 := by omega
        rw [this]
        simp only [prevWordAt, hdropb, headIsWord]
        exact hwb
      have hnw : headIsWord (s.drop (i + term.length)) = false := by
        rw [boundaryAt, hpw] at h3
        cases hnv : headIsWord (s.drop (i + term.length)) with
        | false => rfl
        | true => rw [hnv] at h3; simp at h3
      have hdropp : s.drop (i + term.length) = post := by
        rw [← List.drop_drop, hpost, List.drop_left]
      rw [hdropp, hpc] at hnw
      simpa [headIsWord] using hnw
  · rintro ⟨pre, post, hsplit, hpre, hpost2⟩
    rw [reSearchWholeWord, List.any_eq_true]
    have hdropi : s.drop pre.length = term ++ post := by
      rw [hsplit, List.append_assoc, List.drop_left]
    refine ⟨pre.length, ?_, ?_⟩
    · rw [List.mem_range, hsplit]
      simp [List.length_append]
      omega
    · have hw : headIsWord (s.drop pre.length) = true := by
        rw [hdropi, hta]; simp [headIsWord, hwa]
      have hp : prevWordAt s pre.length = false := by
        rcases List.eq_nil_or_concat pre with rfl | ⟨pre', c, hc⟩
        · rfl
        · rw [List.concat_eq_append] at hc
          have hlen2 : pre.length = pre'.length + 1 := by rw [hc]; simp
          rw [hlen2]
          have hdropc : s.drop pre'.length = c :: (term ++ post) := by
            conv_lhs => rw [hsplit, hc]
            rw [List.append_assoc, List.append_assoc, List.singleton_append, List.drop_left]
          simp only [prevWordAt, hdropc, headIsWord]
          exact hpre pre' c hc
      have hb1 : boundaryAt s pre.length = true := by
        rw [boundaryAt, hp, hw]; rfl
      have hb2 : boundaryAt s (pre.length + term.length) = true := by
        have hlen : term.length = tb.length + 1 := by rw [htb]; simp
        have hpw : prevWordAt s (pre.length + term.length) = true := by
          have heq : pre.length + term.length = (pre.length + tb.length) + 1 := by omega
          rw [heq]
          have hdropb : s.drop (pre.length + tb.length) = b :: post := by
            rw [← List.drop_drop, hdropi, htb, List.append_assoc, List.singleton_append,
              List.drop_left]
          simp only [prevWordAt, hdropb, headIsWord]
          exact hwb
        have hnw : headIsWord (s.drop (pre.length + term.length)) = false := by
          have hdropp : s.drop (pre.length + term.length) = post := by
            rw [← List.drop_drop, hdropi, List.drop_left]
          rw [hdropp]
          cases post with
          | nil => rfl
          | cons c post' => simpa [headIsWord] using hpost2 c post' rfl
        rw [boundaryAt, hpw, hnw]; rfl
      have hlit : litPrefix term (s.drop pre.length) = true :=
        (litPrefix_iff term _).mpr ⟨post, hdropi⟩
      simp [hb1, hb2, hlit]

theorem testBit_encodeFlags_foldl (cleaned : List Char) (table : List (Nat × List String)) :
    ∀ (acc : Nat) (i : Nat),
      (table.foldl
        (fun acc e =>
          if e.2.any (fun term => reSearchWholeWord term.data cleaned) then
            acc ||| (1 <<< e.1)
          else acc) acc).testBit i
      = (acc.testBit i ||
          table.any fun e =>
            decide (e.1 = i) && e.2.any fun term => reSearchWholeWord term.data cleaned) := by
  induction table with
  | nil => intro acc i; simp
  | cons e t ih =>
    intro acc i
    simp only [List.foldl_cons, List.any_cons]
    by_cases hm : e.2.any (fun term => reSearchWholeWord term.data cleaned) = true
    · rw [if_pos hm, ih, hm, Nat.testBit_or, Nat.one_shiftLeft, Nat.testBit_two_pow]
      cases acc.testBit i <;> cases hd : decide (e.1 = i) <;> simp
    · rw [if_neg hm, ih]
      rw [Bool.not_eq_true] at hm
      rw [hm]
      cases acc.testBit i <;> cases hd : decide (e.1 = i) <;> simp

theorem testBit_encodeFlags (table : List (Nat × List String)) (cleaned : List Char) (i : Nat) :
    (encodeFlags table cleaned).testBit i
      = table.any fun e =>
          decide (e.1 = i) && e.2.any fun term => reSearchWholeWord term.data cleaned := by
  rw [encodeFlags, testBit_encodeFlags_foldl, Nat.zero_testBit, Bool.false_or]

theorem getCol_setCol_same (df : DataFrame) (n : String) (v : List Cell) :
    getCol (setCol df n v) n = some v := by
  induction df with
  | nil => simp [setCol, getCol]
  | cons e t ih =>
    by_cases h : e.1 = n
    · simp [setCol, h, getCol]
    · simp [setCol, h, getCol, ih]

theorem getCol_setCol_other (df : DataFrame) (m n : String) (v : List Cell) (h : m ≠ n) :
    getCol (setCol df n v) m = getCol df m := by
  induction df with
  | nil => simp [setCol, getCol, Ne.symm h]
  | cons e t ih =>
    by_cases he : e.1 = n
    · have hem : ¬e.1 = m := by rw [he]; exact Ne.symm h
      rw [setCol, if_pos he, getCol, if_neg (Ne.symm h), getCol, if_neg hem]
    · by_cases hm : e.1 = m
      · rw [setCol, if_neg he, getCol, if_pos hm, getCol, if_pos hm]
      · rw [setCol, if_neg he, getCol, if_neg hm, getCol, if_neg hm, ih]

theorem setCol_getCol_self (df : DataFrame) (n : String) (v : List Cell)
    (h : getCol df n = some v) : setCol df n v = df := by
  induction df with
  | nil => simp [getCol] at h
  | cons e t ih =>
    by_cases he : e.1 = n
    · rw [getCol, if_pos he] at h
      have hv : e.2 = v := by injection h
      rw [setCol, if_pos he, ← he, ← hv]
    · rw [getCol, if_neg he] at h
      rw [setCol, if_neg he, ih h]

theorem self_ne_self_flags (s : String) : s ≠ s ++ "_flags" := by
  intro h
  have h1 := congrArg String.length h
  rw [String.length_append] at h1
  have h6 : ("_flags" : String).length = 6 := rfl
  rw [h6] at h1
  omega

theorem flags_suffix_inj {a b : String} (h : a ++ "_flags" = b ++ "_flags") : a = b := by
  cases a with
  | mk da =>
    cases b with
    | mk db =>
      have hd := congrArg String.data h
      rw [String.data_append, String.data_append] at hd
      exact congrArg String.mk (List.append_cancel_right hd)

theorem standardize_lookup_canonical {s t : String} (hl : standardize_lookup s = some t) :
    standardize_lookup t = none := by
  rw [standardize_lookup] at hl
  split_ifs at hl <;> (injection hl with hv; subst hv; decide)

theorem standardizeCell_idem (x : Cell) :
    standardizeCell (standardizeCell x) = standardizeCell x := by
  cases x with
  | int n => rfl
  | null => rfl
  | str s =>
    cases hl : standardize_lookup s with
    | none => simp [standardizeCell, hl]
    | some t =>
      simp [standardizeCell, hl, standardize_lookup_canonical hl]

theorem map_standardizeCell_idem (l : List Cell) :
    (l.map standardizeCell).map standardizeCell = l.map standardizeCell := by
  rw [List.map_map]
  exact List.map_congr_left fun x _ => standardizeCell_idem x

theorem scanLabel_append_of_skip (a : List Char) (b : List Char)
    (h : ∀ i, i < a.length → tryLabelAt ((a ++ b).drop i) = none) :
    scanLabel (a ++ b) = scanLabel b := by
  induction a with
  | nil => simp
  | cons c a' ih =>
    have h0 : tryLabelAt ((c :: a') ++ b) = none := by
      have := h 0 (by simp)
      simpa using this
    rw [List.cons_append] at h0 ⊢
    rw [scanLabel, h0]
    exact ih fun i hi => by
      have h1 := h (i + 1) (by simp only [List.length_cons]; omega)
      simpa using h1

theorem tryLabelAt_exam_part (rest : List Char) :
    tryLabelAt ("Exam: foo bar.".data ++ rest) = some "foo bar".data := rfl

theorem mem_cleanPhrase_good {ch : Char} {l : List Char} (h : ch ∈ cleanPhrase l) :
    (isWordChar ch || isPySpace ch) = true := by
  rw [cleanPhrase, List.mem_filter] at h
  exact h.2

theorem reSearch_cleanPhrase_false_of_bad {term l : List Char}
    (hbad : (term.any fun c => !(isWordChar c || isPySpace c)) = true) :
    reSearchWholeWord term (cleanPhrase l) = false := by
  by_contra hcf
  rw [Bool.not_eq_false] at hcf
  rw [reSearchWholeWord, List.any_eq_true] at hcf
  obtain ⟨i, _, hcond⟩ := hcf
  obtain ⟨h12, _⟩ := (Bool.and_eq_true _ _).mp hcond
  obtain ⟨_, h2⟩ := (Bool.and_eq_true _ _).mp h12
  obtain ⟨r, hr⟩ := (litPrefix_iff term _).mp h2
  rw [List.any_eq_true] at hbad
  obtain ⟨ch, hcmem, hcbad⟩ := hbad
  have hcin : ch ∈ cleanPhrase l := by
    have h1 : ch ∈ (cleanPhrase l).drop i := by
      rw [hr]; exact List.mem_append_left _ hcmem
    exact List.drop_subset _ _ h1
  have hgood := mem_cleanPhrase_good hcin
  simp only [Bool.not_eq_true'] at hcbad
  rw [hcbad] at hgood
  exact Bool.false_ne_true hgood

theorem wholeWord_cleanPhrase_false_of_bad {term l : List Char}
    (hbad : (term.any fun c => !(isWordChar c || isPySpace c)) = true) :
    ¬ WholeWordOccurs term (cleanPhrase l) := by
  rintro ⟨pre, post, hsplit, -, -⟩
  rw [List.any_eq_true] at hbad
  obtain ⟨ch, hcmem, hcbad⟩ := hbad
  have hcin : ch ∈ cleanPhrase l := by
    rw [hsplit]
    exact List.mem_append_left _ (List.mem_append_right _ hcmem)
  have hgood := mem_cleanPhrase_good hcin
  simp only [Bool.not_eq_true'] at hcbad
  rw [hcbad] at hgood
  exact Bool.false_ne_true hgood

theorem testBit_table_iff (table : List (Nat × List String))
    (hterms : ∀ e ∈ table, ∀ t ∈ e.2,
      goodTerm t.data = true ∨ (t.data.any fun c => !(isWordChar c || isPySpace c)) = true)
    (phrase : String) (i : Nat) :
    (encodeFlags table (cleanPhrase phrase.data)).testBit i = true ↔
      ∃ e ∈ table, e.1 = i ∧
        ∃ term ∈ e.2, WholeWordOccurs term.data (cleanPhrase phrase.data) := by
  rw [testBit_encodeFlags, List.any_eq_true]
  constructor
  · rintro ⟨e, he, hcond⟩
    obtain ⟨hi, hmatch⟩ := (Bool.and_eq_true _ _).mp hcond
    rw [List.any_eq_true] at hmatch
    obtain ⟨t, ht, hsearch⟩ := hmatch
    rcases hterms e he t ht with hg | hb
    · exact ⟨e, he, of_decide_eq_true hi, t, ht, (reSearch_iff _ _ hg).mp hsearch⟩
    · rw [reSearch_cleanPhrase_false_of_bad hb] at hsearch
      exact absurd hsearch (by simp)
  · rintro ⟨e, he, hi, t, ht, hww⟩
    rcases hterms e he t ht with hg | hb
    · refine ⟨e, he, ?_⟩
      rw [Bool.and_eq_true]
      exact ⟨decide_eq_true hi,
        List.any_eq_true.mpr ⟨t, ht, (reSearch_iff _ _ hg).mpr hww⟩⟩
    · exact absurd hww (wholeWord_cleanPhrase_false_of_bad hb)

/-! ## Claims -/

/-- C1 counterexample: the code maps the canonical phrase "with iv contrast"
to code 1, not to 0 as the claim states. -/
theorem claim_C1_counterexample : encode_contrast (some "with iv contrast") ≠ some 0 := by
  decide

/-- C1 (amended): `encode_contrast` maps exactly three canonical phrases to
integer codes — "with iv contrast" to 1, "without iv contrast" to 0, and
"with or without iv contrast" to 2 — and maps anything else, including null,
to null. -/
theorem claim_C1 :
    encode_contrast none = none ∧
    encode_contrast (some "with iv contrast") = some 1 ∧
    encode_contrast (some "without iv contrast") = some 0 ∧
    encode_contrast (some "with or without iv contrast") = some 2 ∧
    ∀ s : String, s ≠ "with iv contrast" → s ≠ "without iv contrast" →
      s ≠ "with or without iv contrast" → encode_contrast (some s) = none := by
  refine ⟨rfl, rfl, rfl, rfl, ?_⟩
  intro s h1 h2 h3
  simp [encode_contrast, contrast_code, h1, h2, h3]

/-- C1 witness: an unrecognised phrase is mapped to null. -/
theorem claim_C1_witness : encode_contrast (some "unrecognized phrase") = none :=
  claim_C1.2.2.2.2 "unrecognized phrase" (by decide) (by decide) (by decide)

/-- C5: segmenting "CT scan abdomen with iv contrast" yields
exam "CT scan", body part "abdomen" and contrast "with iv contrast",
with "scan" in the CT-type vocabulary and "with" among the contrast keywords. -/
theorem claim_C5 :
    ("scan" ∈ ct_types ∧ "with" ∈ keywords) ∧
    format_referral "CT scan abdomen with iv contrast" =
      (some "CT scan", some "abdomen", some "with iv contrast") := by
  decide

/-- C9: the empty string does not produce the all-null segmentation result:
it yields exam "", body part "" and null contrast; the first component of
the segmentation of any string is always non-null, and the all-null result
does arise for a non-string input. -/
theorem claim_C9 :
    format_referral "" = (some "", some "", none) ∧
    format_referral_input PyInput.nonstr = (none, none, none) ∧
    ∀ s : String, (format_referral s).1.isSome = true := by
  refine ⟨by decide, rfl, ?_⟩
  intro s
  cases hts : refTokens s with
  | nil =>
    exfalso
    have hne := pySplitSpace_ne_nil s.data
    rw [refTokens] at hts
    exact hne (List.map_eq_nil_iff.mp hts)
  | cons e0 rest =>
    cases hidx : (e0 :: rest).findIdx? (fun t => ct_types.contains (String.mk t)) with
    | none =>
      simp only [format_referral, hts]
      rw [hidx]
      rfl
    | some k =>
      simp only [format_referral, hts]
      rw [hidx]
      rfl

/-- C7 counterexample: on label-free text ending in two periods the code
removes both, while the claim predicts removing a single trailing period. -/
theorem claim_C7_counterexample :
    scanLabel "foo..".data = none ∧
    clean_recommendation "foo.." ≠ claimedNoLabelClean "foo.." := by
  decide

/-- C7 (amended): for text with no recognisable label, the extractor returns
the text with newlines replaced by spaces, stripped, and with ALL trailing
periods removed (not just a single one); on "foo.." it returns "foo". -/
theorem claim_C7 :
    (∀ t : String, scanLabel t.data = none →
      clean_recommendation t =
        String.mk (stripTrailingDots
          (pyStrip (t.data.map fun c => if c == '\n' then ' ' else c)))) ∧
    clean_recommendation "foo.." = "foo" := by
  refine ⟨?_, by decide⟩
  intro t ht
  rw [clean_recommendation, ht]

/-- C7 witness: a concrete label-free text. -/
theorem claim_C7_witness : clean_recommendation "no label\nhere.." = "no label here" :=
  (claim_C7.1 "no label\nhere.." (by decide)).trans (by decide)

/-- C8 counterexample: a text containing the substring "Exam: foo bar." whose
extraction is not "foo bar", because an earlier "Recommendation:" label wins. -/
theorem claim_C8_counterexample :
    containsSeg "Exam: foo bar.".data "Recommendation: baz. Exam: foo bar.".data = true ∧
    clean_recommendation "Recommendation: baz. Exam: foo bar." ≠ "foo bar" := by
  decide

/-- C8 (amended): for text containing "Exam: foo bar.", extraction returns
"foo bar" provided no label match starts before that occurrence (the
leftmost recognisable label wins). -/
theorem claim_C8 (pre post : String)
    (h : ∀ i, i < pre.data.length →
      tryLabelAt ((pre.data ++ ("Exam: foo bar.".data ++ post.data)).drop i) = none) :
    clean_recommendation (pre ++ "Exam: foo bar." ++ post) = "foo bar" := by
  have hd : (pre ++ "Exam: foo bar." ++ post).data
      = pre.data ++ ("Exam: foo bar.".data ++ post.data) := by
    rw [String.data_append, String.data_append, List.append_assoc]
  rw [clean_recommendation, hd, scanLabel_append_of_skip _ _ h]
  have hcons : "Exam: foo bar.".data ++ post.data
      = 'E' :: ("xam: foo bar.".data ++ post.data) := rfl
  rw [hcons, scanLabel, ← hcons, tryLabelAt_exam_part]
  rfl

/-- C8 witness: the text "Exam: foo bar." itself. -/
theorem claim_C8_witness : clean_recommendation ("" ++ "Exam: foo bar." ++ "") = "foo bar" :=
  claim_C8 "" "" (by intro i hi; simp at hi)

/-- C10: a configured term containing punctuation (a character that is
neither a word character nor whitespace) can never match any input, because
the cleaned input contains only word and whitespace characters; in
particular "x-ray" is such a term of the Radiography and X-Ray category
(bit 3), and encoding the input "x-ray" sets no bits at all. -/
theorem claim_C10 :
    (∀ (term : List Char) (phrase : String),
      (term.any fun c => !(isWordChar c || isPySpace c)) = true →
      reSearchWholeWord term (cleanPhrase phrase.data) = false) ∧
    (∃ e ∈ exam_categories, e.1 = 3 ∧ "x-ray" ∈ e.2) ∧
    map_exam_to_binary_flag (some "x-ray") = some 0 := by
  exact ⟨fun term phrase hterm => reSearch_cleanPhrase_false_of_bad hterm,
    by decide, by decide⟩

/-- C10 witness: the term "x-ray" never matches, not even the input "x-ray". -/
theorem claim_C10_witness :
    reSearchWholeWord "x-ray".data (cleanPhrase "x-ray".data) = false :=
  claim_C10.1 "x-ray".data "x-ray" (by decide)

/-- C3: for both vocabulary tables, bit i of the returned bitmask is set iff
some trigger term of the category carrying bit i occurs
word-boundary-delimited in the cleaned segment; "kidney stone" sets exactly
the abdomen_pelvis bit (value 8) and "kidneystone" sets no bits. -/
theorem claim_C3 :
    (∀ (phrase : String) (i : Nat),
      (encodeFlags organ_clusters (cleanPhrase phrase.data)).testBit i = true ↔
        ∃ e ∈ organ_clusters, e.1 = i ∧
          ∃ term ∈ e.2, WholeWordOccurs term.data (cleanPhrase phrase.data)) ∧
    (∀ (phrase : String) (i : Nat),
      (encodeFlags exam_categories (cleanPhrase phrase.data)).testBit i = true ↔
        ∃ e ∈ exam_categories, e.1 = i ∧
          ∃ term ∈ e.2, WholeWordOccurs term.data (cleanPhrase phrase.data)) ∧
    tokenize_and_flag_organs (some "kidney stone") = some 8 ∧
    tokenize_and_flag_organs (some "kidneystone") = some 0 := by
  refine ⟨testBit_table_iff organ_clusters (by decide),
    testBit_table_iff exam_categories (by decide), by decide, by decide⟩

/-- C6: when no token of the phrase is a CT-type keyword, the exam is the
first token alone and only the tokens after the first are scanned for a
contrast keyword and split into body part and contrast. -/
theorem claim_C6 (s : String) (e0 : List Char) (rest : List (List Char))
    (hts : refTokens s = e0 :: rest)
    (hno : ∀ t ∈ refTokens s, ct_types.contains (String.mk t) = false) :
    format_referral s =
      (some (String.mk e0), (splitBodyContrast rest).1, (splitBodyContrast rest).2) := by
  have hidx : (e0 :: rest).findIdx? (fun t => ct_types.contains (String.mk t)) = none :=
    findIdx?_none_of_all _ _ fun x hx => hno x (hts ▸ hx)
  simp only [format_referral, hts]
  rw [hidx]

/-- C6 witness: "MRI brain w contrast" has no CT-type token; the exam is
"MRI" and only the remaining tokens are split on the keyword "w". -/
theorem claim_C6_witness :
    format_referral "MRI brain w contrast" =
      (some (String.mk "MRI".data),
       (splitBodyContrast ["brain".data, "w".data, "contrast".data]).1,
       (splitBodyContrast ["brain".data, "w".data, "contrast".data]).2) :=
  claim_C6 "MRI brain w contrast" "MRI".data ["brain".data, "w".data, "contrast".data]
    (by decide) (by decide)

/-- C2 counterexample: on a record collection that has the exam field but is
missing the organ field, `process_data` raises, yet the state it leaves
behind differs from the input — the exam flags field was already written, so
mutation happens before the failure. -/
theorem claim_C2_counterexample :
    (process_data [("exam", [Cell.str "ct"])] "exam" "organ" "contrast").2.isSome = true ∧
    (process_data [("exam", [Cell.str "ct"])] "exam" "organ" "contrast").1
      ≠ [("exam", [Cell.str "ct"])] := by
  decide

/-- C2 (amended): `process_data` does not fail fast on every missing field.
A missing exam field fails before any mutation, but a missing organ field
fails only after the exam flags field has been written, so per-record work
does happen before that failure. -/
theorem claim_C2 :
    (∀ (df : DataFrame) (e o c : String), getCol df e = none →
      process_data df e o c = (df, some ("KeyError: " ++ e))) ∧
    (∀ (df : DataFrame) (e o c : String) (ecol : List Cell),
      getCol df e = some ecol →
      getCol (setCol df (e ++ "_flags") (ecol.map examFlagCell)) o = none →
      process_data df e o c =
        (setCol df (e ++ "_flags") (ecol.map examFlagCell), some ("KeyError: " ++ o))) := by
  constructor
  · intro df e o c h
    simp [process_data, h]
  · intro df e o c ecol he ho
    simp [process_data, he, ho]

/-- C2 witness: a one-column collection with only the exam field present. -/
theorem claim_C2_witness :
    process_data [("exam", [Cell.str "ct"])] "exam" "organ" "contrast" =
      (setCol [("exam", [Cell.str "ct"])] ("exam" ++ "_flags")
        ([Cell.str "ct"].map examFlagCell),
       some ("KeyError: " ++ "organ")) :=
  claim_C2.2 [("exam", [Cell.str "ct"])] "exam" "organ" "contrast" [Cell.str "ct"]
    (by decide) (by decide)

/-- C4: standardising an already-standardised contrast value leaves it
unchanged, and running `process_data` a second time on its own successful
output, with the same (pairwise non-clashing) field names, reproduces that
output exactly — the recomputed flag fields coincide with the first run's. -/
theorem claim_C4 :
    (∀ x : Cell, standardizeCell (standardizeCell x) = standardizeCell x) ∧
    ∀ (df : DataFrame) (e o c : String) (df' : DataFrame),
      e ≠ o → e ≠ c → o ≠ c →
      e ≠ o ++ "_flags" → e ≠ c ++ "_flags" →
      o ≠ e ++ "_flags" → o ≠ c ++ "_flags" →
      c ≠ e ++ "_flags" → c ≠ o ++ "_flags" →
      process_data df e o c = (df', none) →
      process_data df' e o c = (df', none) := by
  refine ⟨standardizeCell_idem, ?_⟩
  intro df e o c df' heo hec hoc heof hecf hoef hocf hcef hcof hrun
  cases he : getCol df e with
  | none => simp [process_data, he] at hrun
  | some ecol =>
  cases ho : getCol (setCol df (e ++ "_flags") (ecol.map examFlagCell)) o with
  | none => simp only [process_data, he, ho] at hrun; simp at hrun
  | some ocol =>
  cases hc : getCol (setCol (setCol df (e ++ "_flags") (ecol.map examFlagCell))
      (o ++ "_flags") (ocol.map organFlagCell)) c with
  | none => simp only [process_data, he, ho, hc] at hrun; simp at hrun
  | some ccol =>
  simp only [process_data, he, ho, hc] at hrun
  rw [Prod.mk.injEq] at hrun
  obtain ⟨hdf, -⟩ := hrun
  subst hdf
  set A := ecol.map examFlagCell with hA
  set B := ocol.map organFlagCell with hB
  set C := ccol.map standardizeCell with hC
  set df1 := setCol df (e ++ "_flags") A with hdf1
  set df2 := setCol df1 (o ++ "_flags") B with hdf2
  set df3 := setCol df2 c C with hdf3
  set df4 := setCol df3 (c ++ "_flags") (C.map contrastFlagCell) with hdf4
  have nef_cf : e ++ "_flags" ≠ c ++ "_flags" := fun hx => hec (flags_suffix_inj hx)
  have nef_c : e ++ "_flags" ≠ c := Ne.symm hcef
  have nef_of : e ++ "_flags" ≠ o ++ "_flags" := fun hx => heo (flags_suffix_inj hx)
  have nof_cf : o ++ "_flags" ≠ c ++ "_flags" := fun hx => hoc (flags_suffix_inj hx)
  have nof_c : o ++ "_flags" ≠ c := Ne.symm hcof
  have h1 : getCol df4 e = some ecol := by
    rw [hdf4, getCol_setCol_other _ _ _ _ hecf, hdf3, getCol_setCol_other _ _ _ _ hec,
      hdf2, getCol_setCol_other _ _ _ _ heof, hdf1,
      getCol_setCol_other _ _ _ _ (self_ne_self_flags e), he]
  have h2 : setCol df4 (e ++ "_flags") A = df4 := by
    apply setCol_getCol_self
    rw [hdf4, getCol_setCol_other _ _ _ _ nef_cf, hdf3, getCol_setCol_other _ _ _ _ nef_c,
      hdf2, getCol_setCol_other _ _ _ _ nef_of, hdf1, getCol_setCol_same]
  have h3 : getCol df4 o = some ocol := by
    rw [hdf4, getCol_setCol_other _ _ _ _ hocf, hdf3, getCol_setCol_other _ _ _ _ hoc,
      hdf2, getCol_setCol_other _ _ _ _ (self_ne_self_flags o)]
    exact ho
  have h4 : setCol df4 (o ++ "_flags") B = df4 := by
    apply setCol_getCol_self
    rw [hdf4, getCol_setCol_other _ _ _ _ nof_cf, hdf3, getCol_setCol_other _ _ _ _ nof_c,
      hdf2, getCol_setCol_same]
  have h5 : getCol df4 c = some C := by
    rw [hdf4, getCol_setCol_other _ _ _ _ (self_ne_self_flags c), hdf3, getCol_setCol_same]
  have h6 : C.map standardizeCell = C := by
    rw [hC]
    exact map_standardizeCell_idem ccol
  have h7 : setCol df4 c C = df4 := setCol_getCol_self _ _ _ h5
  have h8 : setCol df4 (c ++ "_flags") (C.map contrastFlagCell) = df4 := by
    apply setCol_getCol_self
    rw [hdf4, getCol_setCol_same]
  simp only [process_data, h1, ← hA, h2, h3, ← hB, h4, h5, h6, h7, h8]

/-- C4 witness: a three-column record collection processed twice. -/
theorem claim_C4_witness :
    process_data
      (process_data
        [("exam", [Cell.str "ct"]), ("organ", [Cell.str "head"]),
         ("contrast", [Cell.str "with iv contrast "])] "exam" "organ" "contrast").1
      "exam" "organ" "contrast" =
    ((process_data
        [("exam", [Cell.str "ct"]), ("organ", [Cell.str "head"]),
         ("contrast", [Cell.str "with iv contrast "])] "exam" "organ" "contrast").1,
      none) :=
  claim_C4.2
    [("exam", [Cell.str "ct"]), ("organ", [Cell.str "head"]),
     ("contrast", [Cell.str "with iv contrast "])]
    "exam" "organ" "contrast" _
    (by decide) (by decide) (by decide) (by decide) (by decide) (by decide) (by decide)
    (by decide) (by decide) (by decide)

end MedProc
